import Mathlib

/-!
Shallow embedding of the pdf-holomask anonymization core
(`src/app/pdf_processor.py` and the overlap-aware text extractor in
`src/app/mistral_analyzer.py`), together with theorems settling the
frozen specification claims about it.

Conventions of the embedding:
* PyMuPDF rectangles become `Rect` over `ℚ`; floats of the source are
  modelled as rationals (`1.5` is `3/2`, `0.85` is `17/20`).
* Python dicts keyed by strings become ordered association lists with
  Python's update semantics (`dictSet` overwrites in place, `dictGet`
  finds the entry).
* Library calls whose result depends on page content not present in the
  repository (`page.search_for`, font loading, `insert_text` success)
  are fields of the page / an environment record, so each claim is
  quantified over their behaviour.
* Fallible Python code (a `doc[i]` lookup that can raise) returns
  `Option`.
-/

/-- A PyMuPDF rectangle `(x0, y0, x1, y1)`. -/
structure Rect where
  x0 : ℚ
  y0 : ℚ
  x1 : ℚ
  y1 : ℚ
deriving DecidableEq, Repr

/-- `fitz.Rect.is_empty`: true when `x0 >= x1` or `y0 >= y1`. -/
def Rect.isEmptyR (r : Rect) : Bool :=
  r.x1 ≤ r.x0 || r.y1 ≤ r.y0

/-- `fitz` rectangle intersection (`line_rect & seen_rect`): the
component-wise max/min rectangle. -/
def Rect.inter (r s : Rect) : Rect :=
  ⟨max r.x0 s.x0, max r.y0 s.y0, min r.x1 s.x1, min r.y1 s.y1⟩

/-- `fitz.Rect.intersects`: the two rectangles share a non-empty
rectangle (false when either is empty). -/
def Rect.intersects (r s : Rect) : Bool :=
  !r.isEmptyR && !s.isEmptyR && !(Rect.inter r s).isEmptyR

/-- `fitz.Rect.get_area`: width times height, widths taken as absolute
values. -/
def Rect.getArea (r : Rect) : ℚ :=
  |r.x1 - r.x0| * |r.y1 - r.y0|

/-- Python `d[k]` / `d.get(k)` on a string-keyed dict modelled as an
ordered association list. -/
def dictGet {V : Type} : List (String × V) → String → Option V
  | [], _ => none
  | kv :: rest, k => if kv.1 = k then some kv.2 else dictGet rest k

/-- Python `d[k] = v`: overwrite the existing entry in place, else
append at the end (matching dict insertion-order semantics). -/
def dictSet {V : Type} : List (String × V) → String → V → List (String × V)
  | [], k, v => [(k, v)]
  | kv :: rest, k, v => if kv.1 = k then (k, v) :: rest else kv :: dictSet rest k v

/-- Python `d.get(k, 0)` for the per-type counters. -/
def dictGetNat (m : List (String × Nat)) (k : String) : Nat :=
  (dictGet m k).getD 0

/-- A text span of `page.get_text("dict")`: the source indexes
`span["bbox"]` directly and uses `span.get(...)` with defaults for the
other fields, so only those are optional. `text` is used by the
extractor (`span.get("text", "")`). -/
structure Span where
  bbox : Rect
  size : Option ℚ
  font : Option String
  color : Option Int
  text : Option String
deriving DecidableEq, Repr

/-- A text line: the extractor reads `line.get("bbox")` (optional) and
both consumers read `line["spans"]`. -/
structure Line where
  bbox : Option Rect
  spans : List Span
deriving DecidableEq, Repr

/-- A block of `get_text("dict")["blocks"]`: image blocks carry no
`"lines"` key, hence `Option`. -/
structure Block where
  lines : Option (List Line)
deriving DecidableEq, Repr

/-- A page. `searchFor` abstracts `page.search_for` (the library's text
geometry search); `blocks` is `page.get_text("dict")["blocks"]`;
`fonts` is `page.get_fonts(full=True)`, each entry the tuple of fields
of one font (only indices 3 and 4 are read by the source). -/
structure Page where
  searchFor : String → List Rect
  blocks : List Block
  fonts : List (List String)

/-- A document: its pages and its metadata dict. -/
structure Doc where
  pages : List Page
  metadata : List (String × String)

/-- Python `doc[i]` / `load_page`: non-negative indices look up
directly, negative indices count from the end, anything further out
raises (modelled as `none`). -/
def Doc.loadPage (d : Doc) (i : Int) : Option Page :=
  if 0 ≤ i then d.pages.get? i.toNat
  else if 0 ≤ (d.pages.length : Int) + i then d.pages.get? ((d.pages.length : Int) + i).toNat
  else none

/-- An oracle-reported sensitive element (raw JSON object with optional
keys, as consumed by `element.get(...)`). -/
structure Element where
  type' : Option String
  value : Option String
  replacement : Option String
  page : Option Int
  confidence : Option ℚ
deriving DecidableEq, Repr

/-- Python `str.split()`: split on whitespace, discarding empty
pieces. -/
def pySplit (s : String) : List String :=
  (s.split Char.isWhitespace).filter (fun t => t ≠ "")

/-- The `elements_to_search` list of `anonymize_pdf` (lines 47-59):
always the full `(value, replacement)` pair; for person/client names
whose value and replacement both split into at least two tokens, also
the first-token and last-token pairs. -/
def elementsToSearch (elementType originalText replacement : String) : List (String × String) :=
  let base := [(originalText, replacement)]
  if elementType = "Person Name" ∨ elementType = "Client Name" then
    let nameParts := pySplit originalText
    let replacementParts := pySplit replacement
    if 2 ≤ nameParts.length ∧ 2 ≤ replacementParts.length then
      base ++ [(nameParts.headD "", replacementParts.headD ""),
               (nameParts.getLastD "", replacementParts.getLastD "")]
    else base
  else base

/-- The font-size correction of the style probe (lines 86-93):
`visual_height > reported_size * 1.5` selects `visual_height * 0.85`,
otherwise the reported size is kept. -/
def actualSize (reportedSize visualHeight : ℚ) : ℚ :=
  if visualHeight > reportedSize * (3 / 2) then visualHeight * (17 / 20)
  else reportedSize

/-- The style information attached to a matched occurrence. -/
structure SpanInfo where
  font : String
  size : ℚ
  color : Int
deriving DecidableEq, Repr

/-- First span (in block/line/span order) whose bbox intersects the
matched rectangle (lines 77-104); blocks without `"lines"` are
skipped. -/
def findSpan (blocks : List Block) (rect : Rect) : Option Span :=
  blocks.findSome? fun b =>
    match b.lines with
    | some ls => ls.findSome? fun line => line.spans.find? fun s => s.bbox.intersects rect
    | none => none

/-- The style probe (lines 76-107): style of the first intersecting
span with the size correction applied, or the default style
`{font: helv, size: 10, color: 0}` when no span intersects. -/
def probeStyle (page : Page) (rect : Rect) : SpanInfo :=
  match findSpan page.blocks rect with
  | some span =>
      ⟨span.font.getD "helv",
       actualSize (span.size.getD 10) (span.bbox.y1 - span.bbox.y0),
       span.color.getD 0⟩
  | none => ⟨"helv", 10, 0⟩

/-- The value stored in `text_positions` for one occurrence
(lines 109-113). -/
structure PosInfo where
  rect : Rect
  replacement : String
  spanInfo : SpanInfo
deriving DecidableEq, Repr

/-- The dict key `f"{page_num}_{search_text}_{rect.x0}_{rect.y0}"`
(line 73). -/
def mkKey (pageNum : Int) (searchText : String) (rect : Rect) : String :=
  toString pageNum ++ "_" ++ searchText ++ "_" ++ toString rect.x0 ++ "_" ++ toString rect.y0

/-- A `not_found_elements` entry (lines 118-123). -/
structure NotFoundRecord where
  type' : String
  value : String
  page : Int
  replacement : String
deriving DecidableEq, Repr

/-- State accumulated by the first (locate) pass: the `text_positions`
dict and the `not_found_elements` list. -/
structure LocState where
  textPositions : List (String × PosInfo)
  notFound : List NotFoundRecord
deriving DecidableEq, Repr

/-- The inner search loop body (lines 65-113): search one
`(search_text, search_replacement)` pair on the page and store one
`PosInfo` per returned rectangle under its position key. -/
def processSearchPair (page : Page) (pageNum : Int)
    (tp : List (String × PosInfo)) (pair : String × String) : List (String × PosInfo) :=
  (page.searchFor pair.1).foldl
    (fun acc rect => dictSet acc (mkKey pageNum pair.1 rect) ⟨rect, pair.2, probeStyle page rect⟩)
    tp

/-- `page_num = element.get("page", 1) - 1` (line 42). -/
def elemPageNum (e : Element) : Int :=
  e.page.getD 1 - 1

/-- `original_text = element.get("value", "")` (line 43). -/
def elemValue (e : Element) : String :=
  e.value.getD ""

/-- `element_type = element.get("type", "Unknown")` (line 44). -/
def elemType (e : Element) : String :=
  e.type'.getD "Unknown"

/-- `replacement = element.get("replacement", "XXXXX")` (line 45). -/
def elemReplacement (e : Element) : String :=
  e.replacement.getD "XXXXX"

/-- One iteration of the first pass of `anonymize_pdf` (lines 41-123)
for a single oracle element: apply the field defaults, build the search
pairs, and — when `page_num < len(doc)` — search each pair on
`doc[page_num]` and record a `NotFoundRecord` when the full original
value is absent from that page. A `doc[page_num]` lookup that raises
(index below `-page_count`) yields `none`. -/
def processElement (doc : Doc) (st : LocState) (e : Element) : Option LocState :=
  if elemPageNum e < (doc.pages.length : Int) then
    match doc.loadPage (elemPageNum e) with
    | none => none
    | some page =>
        some ⟨(elementsToSearch (elemType e) (elemValue e) (elemReplacement e)).foldl
                (processSearchPair page (elemPageNum e)) st.textPositions,
              if page.searchFor (elemValue e) = [] then
                st.notFound ++ [⟨elemType e, elemValue e, elemPageNum e + 1, elemReplacement e⟩]
              else st.notFound⟩
  else some st

/-- The whole first pass over `analysis_result["sensitive_elements"]`. -/
def firstPass (doc : Doc) (elems : List Element) : Option LocState :=
  elems.foldlM (processElement doc) ⟨[], []⟩

/-- Observable side effects of the second (compositing) pass, tagged
with the page they mutate: one `blank` per `add_redact_annot`
(line 137), one `applyRedactions` per `page.apply_redactions()`
(line 141), one `insert` per replacement-text draw
(lines 168-174 and 206-207). -/
inductive Event where
  | blank (page : Nat) (rect : Rect)
  | applyRedactions (page : Nat)
  | insert (page : Nat) (text : String)
deriving DecidableEq, Repr

/-- The page an event mutates. -/
def Event.page : Event → Nat
  | .blank p _ => p
  | .applyRedactions p => p
  | .insert p _ => p

/-- The `text_positions` entries belonging to page `p`: keys starting
with `f"{page_num}_"` (lines 131-132 and 153-154). -/
def pageInfos (tp : List (String × PosInfo)) (p : Nat) : List (String × PosInfo) :=
  tp.filter (fun kv => kv.1.startsWith (toString p ++ "_"))

/-- The event trace of one iteration of the second pass (lines
126-207): all redaction annotations for the page, then
`apply_redactions`, then the replacement-text insertions. -/
def pageTrace (tp : List (String × PosInfo)) (p : Nat) : List Event :=
  (pageInfos tp p).map (fun kv => Event.blank p kv.2.rect)
    ++ [Event.applyRedactions p]
    ++ (pageInfos tp p).map (fun kv => Event.insert p kv.2.replacement)

/-- The event trace of the whole second pass over `n` pages. -/
def secondPassTrace (tp : List (String × PosInfo)) (n : Nat) : List Event :=
  ((List.range n).map (pageTrace tp)).flatten

/-- The fixed attribution written into the author field (line 211). -/
def holomaskAuthor : String := "holomask https://holofin.ai"

/-- The output metadata (lines 209-212): a copy of the original dict
(the empty dict when the original is falsy) with `author` overwritten
by the fixed attribution. -/
def finalMetadata (original : List (String × String)) : List (String × String) :=
  let metadata := if original = [] then [] else original
  dictSet metadata "author" holomaskAuthor

/-- The `elements_by_type` per-type counters (lines 215-218). -/
def elementsByType (elems : List Element) : List (String × Nat) :=
  elems.foldl
    (fun m e =>
      let elementType := e.type'.getD "Unknown"
      dictSet m elementType (dictGetNat m elementType + 1))
    []

/-- The `anonymization_summary` dict (lines 220-227). -/
structure Summary where
  total_elements_found : Nat
  total_replacements : Nat
  elements_by_type : List (String × Nat)
  ai_detected_count : Nat
  actually_found_count : Nat
  not_found_count : Nat
deriving Repr

/-- Build the summary from the oracle elements, the `text_positions`
dict and the `not_found_elements` list. -/
def mkSummary (elems : List Element) (tp : List (String × PosInfo))
    (nf : List NotFoundRecord) : Summary :=
  ⟨elems.length, tp.length, elementsByType elems, elems.length, tp.length, nf.length⟩

/-- Sum of the per-type counters. -/
def sumValues (m : List (String × Nat)) : Nat :=
  (m.map (fun kv => kv.2)).sum

/-- Whether fonts load and page-font insertion succeeds: the outcome of
the fallible library calls `page.insert_text` (per font reference) and
`fitz.Font(name)` (per font name). -/
structure FontEnv where
  insertTextOk : String → Bool
  fontLoadOk : String → Bool

/-- The font ultimately used for one replacement insertion. -/
inductive FontChoice where
  | embedded (ref : String)
  | standalone (name : String)
  | base
deriving DecidableEq, Repr

/-- `font_map` built from `page.get_fonts(full=True)` (lines 144-150):
tuples of length at least 5 map their basefont (index 3) to their
reference name (index 4). -/
def buildFontMap (fonts : List (List String)) : List (String × String) :=
  fonts.foldl
    (fun m fi => if 5 ≤ fi.length then dictSet m (fi.getD 3 "") (fi.getD 4 "") else m)
    []

/-- The `font_attempts` list of the TextWriter strategy (lines
183-188): exact name, name with dashes stripped, Helvetica, Times. -/
def fontAttempts (originalFont : String) : List String :=
  [originalFont, originalFont.replace "-" "", "helv", "Times-Roman"]

/-- Strategies 2 and 3 (lines 179-199): first loadable font of
`font_attempts`, else the argument-less `fitz.Font()` base font, which
cannot fail. -/
def resolveTextWriterFont (env : FontEnv) (originalFont : String) : FontChoice :=
  match (fontAttempts originalFont).find? env.fontLoadOk with
  | some name => .standalone name
  | none => .base

/-- The whole font resolution for one insertion (lines 161-207):
strategy 1 reuses the page's embedded font when `original_font` is in
`font_map` and `insert_text` with its reference succeeds; any failure
falls through to the TextWriter strategies. -/
def resolveFont (env : FontEnv) (fontMap : List (String × String))
    (originalFont : String) : FontChoice :=
  match dictGet fontMap originalFont with
  | some ref =>
      if env.insertTextOk ref then .embedded ref
      else resolveTextWriterFont env originalFont
  | none => resolveTextWriterFont env originalFont

/-- Modelled from the spec: the six font-resolution strategies of
section 4.4 step 2 as an ordered list of `Option`-returning steps —
(a) embedded page font with exactly matching family, (b) standalone
font by exact probed name, (c) standalone font with hyphens stripped,
(d) standard sans-serif face, (e) standard serif face, (f) the built-in
generic base face. -/
def fontStrategies (env : FontEnv) (fontMap : List (String × String))
    (f : String) : List (Option FontChoice) :=
  [(dictGet fontMap f).bind (fun ref =>
      if env.insertTextOk ref then some (.embedded ref) else none),
   if env.fontLoadOk f then some (.standalone f) else none,
   if env.fontLoadOk (f.replace "-" "") then some (.standalone (f.replace "-" "")) else none,
   if env.fontLoadOk "helv" then some (.standalone "helv") else none,
   if env.fontLoadOk "Times-Roman" then some (.standalone "Times-Roman") else none,
   some .base]

/-- First-success-wins combinator over an ordered strategy list. -/
def firstSuccess {α : Type} (l : List (Option α)) : Option α :=
  (l.filterMap id).head?

/-- Python set insertion for the extractor's `seen_positions`. -/
def setAdd (seen : List Rect) (r : Rect) : List Rect :=
  if r ∈ seen then seen else seen ++ [r]

/-- The overlap test of the extractor (lines 125-131): the candidate
line rectangle intersects an accepted rectangle and the intersection
area divided by the line area (0 when the line area is 0) exceeds
0.5. -/
def overlayDrops (lineRect seenRect : Rect) : Bool :=
  lineRect.intersects seenRect &&
    (let ratio :=
      if lineRect.getArea > 0 then (Rect.inter lineRect seenRect).getArea / lineRect.getArea
      else 0
     ratio > 1 / 2)

/-- Concatenated text of a line's spans (`line_text`, lines 136-138). -/
def lineText (line : Line) : String :=
  line.spans.foldl (fun t s => t ++ s.text.getD "") ""

/-- Python `line_text.strip()` truthiness: the string contains a
non-whitespace character. -/
def stripNonEmpty (s : String) : Bool :=
  s.data.any (fun c => !c.isWhitespace)

/-- One line step of `extract_text_from_pdf` (lines 116-141), carrying
`(page_text_parts, seen_positions)`: when the line has a bbox, check it
against every accepted rectangle, record it when not overlapping, and
keep the line's text when it is non-blank and not overlapping. -/
def extractStep (acc : List String × List Rect) (line : Line) : List String × List Rect :=
  let t := lineText line
  match line.bbox with
  | some r =>
      let isOverlapping := acc.2.any (overlayDrops r)
      let seen := if isOverlapping then acc.2 else setAdd acc.2 r
      let parts := if stripNonEmpty t && !isOverlapping then acc.1 ++ [t] else acc.1
      (parts, seen)
  | none =>
      (if stripNonEmpty t then acc.1 ++ [t] else acc.1, acc.2)

/-- All text lines of a page's blocks in document-sorted order (blocks
without `"lines"` skipped, lines 112-116). -/
def pageLines (blocks : List Block) : List Line :=
  (blocks.map (fun b => b.lines.getD [])).flatten

/-- The per-page extraction (lines 104-141): fold `extractStep` over
the page's lines, returning the accepted text parts and the accepted
rectangles. -/
def extractPageParts (blocks : List Block) : List String × List Rect :=
  (pageLines blocks).foldl extractStep ([], [])


/-! ## Helper lemmas -/

lemma dictGet_dictSet {V : Type} (m : List (String × V)) (k k' : String) (v : V) :
    dictGet (dictSet m k v) k' = if k = k' then some v else dictGet m k' := by
  induction m with
  | nil => simp [dictGet, dictSet]
  | cons kv rest ih =>
      by_cases h : kv.1 = k
      · by_cases h' : k = k' <;> simp [dictGet, dictSet, h, h']
      · by_cases h' : kv.1 = k' <;> by_cases h'' : k = k' <;>
          simp_all [dictGet, dictSet]

lemma sumValues_cons (kv : String × Nat) (m : List (String × Nat)) :
    sumValues (kv :: m) = kv.2 + sumValues m := by
  simp [sumValues]

lemma sumValues_dictSet_incr (m : List (String × Nat)) (k : String) :
    sumValues (dictSet m k (dictGetNat m k + 1)) = sumValues m + 1 := by
  induction m with
  | nil => simp [sumValues, dictSet, dictGetNat, dictGet]
  | cons kv rest ih =>
      by_cases h : kv.1 = k
      · simp [dictSet, h, sumValues_cons, dictGetNat, dictGet]
        omega
      · simp only [dictSet, if_neg h, sumValues_cons]
        have : dictGetNat (kv :: rest) k = dictGetNat rest k := by
          simp [dictGetNat, dictGet, h]
        rw [this, ih]
        omega

/-! ## Claim theorems -/

/-- Claim C6: for every probed text run, when the visual height exceeds
1.5 times the reported size the corrected size is 0.85 times the visual
height, otherwise it is exactly the reported size; in particular a
reported size of 10 with visual height 20 yields 17. -/
theorem c6_style_size_correction (reportedSize visualHeight : ℚ) :
    (visualHeight > reportedSize * (3 / 2) →
      actualSize reportedSize visualHeight = visualHeight * (17 / 20)) ∧
    (visualHeight ≤ reportedSize * (3 / 2) →
      actualSize reportedSize visualHeight = reportedSize) ∧
    actualSize 10 20 = 17 := by
  refine ⟨fun h => by simp [actualSize, h], fun h => ?_, by norm_num [actualSize]⟩
  rw [actualSize, if_neg (by linarith)]

/-- Witness for C6 at reported size 10, visual height 20. -/
theorem c6_style_size_correction_witness :
    (20 : ℚ) > 10 * (3 / 2) ∧ actualSize 10 20 = 20 * (17 / 20) :=
  ⟨by norm_num, (c6_style_size_correction 10 20).1 (by norm_num)⟩

/-- Claim C7: the search-pair list carries the first-token and
last-token pairs in addition to the full pair exactly when the type is
a person/client name category and both the value and the replacement
split into at least two whitespace tokens; in every other case it is
exactly the full pair. -/
theorem c7_search_pairs (t o r : String) :
    elementsToSearch t o r =
      if (t = "Person Name" ∨ t = "Client Name") ∧
          2 ≤ (pySplit o).length ∧ 2 ≤ (pySplit r).length then
        [(o, r), ((pySplit o).headD "", (pySplit r).headD ""),
         ((pySplit o).getLastD "", (pySplit r).getLastD "")]
      else [(o, r)] := by
  unfold elementsToSearch
  split_ifs with h1 h2 h3 <;> simp_all

/-- Claim C3: the output metadata preserves every field other than
`author` and sets `author` to the fixed attribution string, whatever
its original value. -/
theorem c3_metadata_preserved (meta : List (String × String)) (k : String)
    (h : k ≠ "author") :
    dictGet (finalMetadata meta) k = dictGet meta k ∧
    dictGet (finalMetadata meta) "author" = some holomaskAuthor := by
  have h' : ¬("author" = k) := fun hh => h hh.symm
  unfold finalMetadata
  by_cases hm : meta = [] <;> simp [hm, dictGet_dictSet, h', dictGet]

/-- Witness for C3 on a metadata dict with a title and an author. -/
theorem c3_metadata_preserved_witness :
    "title" ≠ "author" ∧
    dictGet (finalMetadata [("title", "T"), ("author", "Orig")]) "title" =
      dictGet [("title", "T"), ("author", "Orig")] "title" ∧
    dictGet (finalMetadata [("title", "T"), ("author", "Orig")]) "author" =
      some holomaskAuthor := by
  refine ⟨by decide, ?_, ?_⟩
  · exact (c3_metadata_preserved [("title", "T"), ("author", "Orig")] "title" (by decide)).1
  · exact (c3_metadata_preserved [("title", "T"), ("author", "Orig")] "title" (by decide)).2

lemma elementsByType_sum_aux (elems : List Element) :
    ∀ m : List (String × Nat),
      sumValues (elems.foldl
        (fun m e => dictSet m (elemType e) (dictGetNat m (elemType e) + 1)) m)
        = sumValues m + elems.length := by
  induction elems with
  | nil => intro m; simp
  | cons e es ih =>
      intro m
      rw [List.foldl_cons, ih, sumValues_dictSet_incr]
      simp; omega

lemma elementsByType_count_aux (elems : List Element) (t : String) :
    ∀ m : List (String × Nat),
      dictGetNat (elems.foldl
        (fun m e => dictSet m (elemType e) (dictGetNat m (elemType e) + 1)) m) t
        = dictGetNat m t + (elems.filter (fun e => elemType e == t)).length := by
  induction elems with
  | nil => intro m; simp
  | cons e es ih =>
      intro m
      rw [List.foldl_cons, ih]
      by_cases h : elemType e = t
      · subst h
        simp [dictGetNat, dictGet_dictSet, List.filter_cons]
        omega
      · have : (elemType e == t) = false := by simp [h]
        simp [dictGetNat, dictGet_dictSet, h, List.filter_cons, this]

/-- Claim C10: `elements_by_type` counts every oracle-reported record
by its (defaulted) type, independently of which records were matched or
in range, so the per-type counts sum to `total_elements_found` — the
number of reported elements — not to the number of matched
occurrences. -/
theorem c10_elements_by_type_totals (elems : List Element)
    (tp : List (String × PosInfo)) (nf : List NotFoundRecord) :
    (mkSummary elems tp nf).elements_by_type = elementsByType elems ∧
    (mkSummary elems tp nf).total_elements_found = elems.length ∧
    sumValues (elementsByType elems) = elems.length ∧
    ∀ t, dictGetNat (elementsByType elems) t
      = (elems.filter (fun e => elemType e == t)).length := by
  refine ⟨rfl, rfl, ?_, fun t => ?_⟩
  · have := elementsByType_sum_aux elems []
    simpa [elementsByType, elemType, sumValues] using this
  · have := elementsByType_count_aux elems t []
    simpa [elementsByType, elemType, dictGetNat, dictGet] using this

/-- Claim C8: the font resolution of the compositing pass is the
first-success-wins composition of the six strategies in their fixed
order — embedded page font with exactly matching family, standalone
font by exact probed name, standalone font with hyphens stripped,
standard sans-serif face, standard serif face, built-in base face — the
final base-face strategy never fails, and the whole resolution is total
(no failure of an earlier strategy is surfaced). -/
theorem c8_font_fallback_chain (env : FontEnv) (fontMap : List (String × String))
    (f : String) :
    firstSuccess (fontStrategies env fontMap f) = some (resolveFont env fontMap f) ∧
    (fontStrategies env fontMap f).getLast? = some (some FontChoice.base) := by
  constructor
  · unfold firstSuccess fontStrategies resolveFont resolveTextWriterFont fontAttempts
    cases h : dictGet fontMap f with
    | none =>
        cases h1 : env.fontLoadOk f <;>
          cases h2 : env.fontLoadOk (f.replace "-" "") <;>
            cases h3 : env.fontLoadOk "helv" <;>
              cases h4 : env.fontLoadOk "Times-Roman" <;>
                simp [List.find?, h1, h2, h3, h4]
    | some ref =>
        cases h0 : env.insertTextOk ref <;>
          cases h1 : env.fontLoadOk f <;>
            cases h2 : env.fontLoadOk (f.replace "-" "") <;>
              cases h3 : env.fontLoadOk "helv" <;>
                cases h4 : env.fontLoadOk "Times-Roman" <;>
                  simp [List.find?, h0, h1, h2, h3, h4]
  · rfl

/-- Claim C1 (amended): a record whose declared page number exceeds the
page count is skipped entirely — no matched occurrence and no
`NotFoundRecord` is produced for it. (For page numbers at or below 0
the guard `page_num < len(doc)` passes and Python's negative indexing
resolves a page from the end of the document, so such records are
processed, not skipped — see the counterexample.) -/
theorem c1_pages_beyond_count_skipped (doc : Doc) (st : LocState) (e : Element)
    (h : (doc.pages.length : Int) < e.page.getD 1) :
    processElement doc st e = some st := by
  unfold processElement
  rw [if_neg]
  unfold elemPageNum
  omega

/-- Witness for C1 on a one-page document and a record declaring
page 2. -/
theorem c1_pages_beyond_count_skipped_witness :
    ((Doc.mk [⟨fun _ => [], [], []⟩] []).pages.length : Int) < 2 ∧
    processElement (Doc.mk [⟨fun _ => [], [], []⟩] []) ⟨[], []⟩
        ⟨some "IBAN", some "X", some "Y", some 2, none⟩
      = some ⟨[], []⟩ :=
  ⟨by decide,
   c1_pages_beyond_count_skipped (Doc.mk [⟨fun _ => [], [], []⟩] []) ⟨[], []⟩
     ⟨some "IBAN", some "X", some "Y", some 2, none⟩ (by decide)⟩

/-- A one-page document whose only page contains no text at all. -/
def docEmptyOnePage : Doc :=
  ⟨[⟨fun _ => [], [], []⟩], []⟩

/-- An oracle record declaring page 0 — outside `[1, page_count]`. -/
def elemDeclaringPageZero : Element :=
  ⟨some "IBAN", some "X", some "Y", some 0, none⟩

/-- Counterexample to C1 as stated: the record declares page 0, which
lies outside `[1, page_count]` of the one-page document, yet the locate
pass emits one `NotFoundRecord` for it (page 0 is converted to index
-1, which Python resolves to the last page, where the value is then
searched and not found). -/
theorem c1_counterexample :
    elemDeclaringPageZero.page = some 0 ∧
    docEmptyOnePage.pages.length = 1 ∧
    (processElement docEmptyOnePage ⟨[], []⟩ elemDeclaringPageZero).map LocState.notFound
      = some [⟨"IBAN", "X", 0, "Y"⟩] := by
  refine ⟨rfl, rfl, ?_⟩
  decide

/-- Claim C4: for a record whose declared page lies in
`[1, page_count]`, the locate pass appends exactly one
`NotFoundRecord` — carrying the defaulted type, value, declared page
and replacement — precisely when the full original value is not found
verbatim on that page, and appends none otherwise; whether the
split-token searches matched plays no role. -/
theorem c4_notfound_iff_full_value_absent (doc : Doc) (st : LocState) (e : Element)
    (h1 : 1 ≤ e.page.getD 1) (h2 : e.page.getD 1 ≤ (doc.pages.length : Int)) :
    ∃ page tp, doc.loadPage (elemPageNum e) = some page ∧
      processElement doc st e
        = some ⟨tp, st.notFound ++
            (if page.searchFor (elemValue e) = [] then
              [⟨elemType e, elemValue e, e.page.getD 1, elemReplacement e⟩]
            else [])⟩ := by
  have hp0 : 0 ≤ elemPageNum e := by unfold elemPageNum; omega
  have hplt : elemPageNum e < (doc.pages.length : Int) := by unfold elemPageNum; omega
  have hnat : (elemPageNum e).toNat < doc.pages.length := by omega
  obtain ⟨page, hpage⟩ : ∃ page, doc.pages.get? (elemPageNum e).toNat = some page :=
    ⟨_, List.get?_eq_get hnat⟩
  have hload : doc.loadPage (elemPageNum e) = some page := by
    unfold Doc.loadPage
    rw [if_pos hp0]
    exact hpage
  refine ⟨page,
    (elementsToSearch (elemType e) (elemValue e) (elemReplacement e)).foldl
      (processSearchPair page (elemPageNum e)) st.textPositions, hload, ?_⟩
  unfold processElement
  rw [if_pos hplt, hload]
  have hpg : elemPageNum e + 1 = e.page.getD 1 := by unfold elemPageNum; omega
  by_cases hs : page.searchFor (elemValue e) = [] <;> simp [hs, hpg]

/-- Witness for C4: a record on page 1 of a one-page document that does
not contain its value. -/
theorem c4_notfound_iff_full_value_absent_witness :
    (1 : Int) ≤ (⟨some "IBAN", some "X", some "Y", some 1, none⟩ : Element).page.getD 1 ∧
    (⟨some "IBAN", some "X", some "Y", some 1, none⟩ : Element).page.getD 1
      ≤ (docEmptyOnePage.pages.length : Int) ∧
    (∃ page tp,
      docEmptyOnePage.loadPage
          (elemPageNum ⟨some "IBAN", some "X", some "Y", some 1, none⟩) = some page ∧
      processElement docEmptyOnePage ⟨[], []⟩ ⟨some "IBAN", some "X", some "Y", some 1, none⟩
        = some ⟨tp, ([] : List NotFoundRecord) ++
            (if page.searchFor (elemValue ⟨some "IBAN", some "X", some "Y", some 1, none⟩) = [] then
              [⟨elemType ⟨some "IBAN", some "X", some "Y", some 1, none⟩,
                elemValue ⟨some "IBAN", some "X", some "Y", some 1, none⟩,
                (⟨some "IBAN", some "X", some "Y", some 1, none⟩ : Element).page.getD 1,
                elemReplacement ⟨some "IBAN", some "X", some "Y", some 1, none⟩⟩]
            else [])⟩) :=
  ⟨by decide, by decide,
   c4_notfound_iff_full_value_absent docEmptyOnePage ⟨[], []⟩
     ⟨some "IBAN", some "X", some "Y", some 1, none⟩ (by decide) (by decide)⟩

lemma mem_dictSet {V : Type} (m : List (String × V)) (k : String) (v : V)
    (kv : String × V) (h : kv ∈ dictSet m k v) : kv ∈ m ∨ kv = (k, v) := by
  induction m with
  | nil => simp [dictSet] at h; simp [h]
  | cons kv' rest ih =>
      by_cases hk : kv'.1 = k
      · rw [dictSet, if_pos hk] at h
        rcases List.mem_cons.1 h with h | h
        · right; exact h
        · left; exact List.mem_cons_of_mem _ h
      · rw [dictSet, if_neg hk] at h
        rcases List.mem_cons.1 h with h | h
        · left; simp [h]
        · rcases ih h with h | h
          · left; exact List.mem_cons_of_mem _ h
          · right; exact h

lemma mem_processSearchPair (page : Page) (pageNum : Int) (pair : String × String) :
    ∀ (tp : List (String × PosInfo)) (kv : String × PosInfo),
      kv ∈ processSearchPair page pageNum tp pair →
      kv ∈ tp ∨ kv.2.replacement = pair.2 := by
  unfold processSearchPair
  generalize page.searchFor pair.1 = rects
  induction rects with
  | nil => intro tp kv h; exact Or.inl h
  | cons r rs ih =>
      intro tp kv h
      rw [List.foldl_cons] at h
      rcases ih _ kv h with h' | h'
      · rcases mem_dictSet _ _ _ _ h' with h'' | h''
        · exact Or.inl h''
        · right; rw [h'']
      · exact Or.inr h'

lemma mem_foldl_searchPairs (page : Page) (pageNum : Int) :
    ∀ (pairs : List (String × String)) (tp : List (String × PosInfo))
      (kv : String × PosInfo),
      kv ∈ pairs.foldl (processSearchPair page pageNum) tp →
      kv ∈ tp ∨ ∃ pair ∈ pairs, kv.2.replacement = pair.2 := by
  intro pairs
  induction pairs with
  | nil => intro tp kv h; exact Or.inl h
  | cons p ps ih =>
      intro tp kv h
      rw [List.foldl_cons] at h
      rcases ih _ kv h with h' | h'
      · rcases mem_processSearchPair page pageNum p tp kv h' with h'' | h''
        · exact Or.inl h''
        · exact Or.inr ⟨p, List.mem_cons_self _ _, h''⟩
      · obtain ⟨pair, hmem, heq⟩ := h'
        exact Or.inr ⟨pair, List.mem_cons_of_mem _ hmem, heq⟩

lemma mem_pySplit_ne_empty (s t : String) (h : t ∈ pySplit s) : t ≠ "" := by
  unfold pySplit at h
  exact of_decide_eq_true (List.mem_filter.1 h).2

lemma headD_mem {α : Type} (l : List α) (d : α) (h : l ≠ []) : l.headD d ∈ l := by
  cases l with
  | nil => exact absurd rfl h
  | cons x xs => simp

lemma getLastD_mem {α : Type} (l : List α) (d : α) (h : l ≠ []) : l.getLastD d ∈ l := by
  cases l with
  | nil => exact absurd rfl h
  | cons x xs =>
      rw [List.getLastD_eq_getLast?, List.getLast?_eq_getLast _ (by simp)]
      simp [List.getLast_mem]

lemma elementsToSearch_snd_ne_empty (ty o r : String) (hr : r ≠ "")
    (pair : String × String) (h : pair ∈ elementsToSearch ty o r) : pair.2 ≠ "" := by
  simp only [elementsToSearch] at h
  split_ifs at h with h1 h2
  · rcases List.mem_append.1 h with h' | h'
    · rw [List.mem_singleton.1 h']; exact hr
    · have hne : pySplit r ≠ [] := by
        intro hnil
        rw [hnil] at h2
        simp at h2
      rcases List.mem_cons.1 h' with h'' | h''
      · rw [h'']
        exact mem_pySplit_ne_empty r _ (headD_mem _ _ hne)
      · rw [List.mem_singleton.1 h'']
        exact mem_pySplit_ne_empty r _ (getLastD_mem _ _ hne)
  · rw [List.mem_singleton.1 h]; exact hr
  · rw [List.mem_singleton.1 h]; exact hr

/-- A one-page document whose page renders "A" at one rectangle. -/
def docWithA : Doc :=
  ⟨[⟨fun s => if s = "A" then [⟨0, 0, 10, 10⟩] else [], [], []⟩], []⟩

/-- An oracle record that supplies an explicitly empty replacement. -/
def elemEmptyReplacement : Element :=
  ⟨some "IBAN", some "A", some "", some 1, none⟩

/-- Counterexample to C5 as stated: the oracle supplies the replacement
field as the empty string, `element.get("replacement", "XXXXX")`
returns that empty string rather than the placeholder, and the stored
occurrence carries an empty `replacement_text`. -/
theorem c5_counterexample :
    elemEmptyReplacement.replacement = some "" ∧
    (processElement docWithA ⟨[], []⟩ elemEmptyReplacement).map
        (fun st => st.textPositions.map (fun kv => kv.2.replacement))
      = some [""] := by
  refine ⟨rfl, ?_⟩
  decide

/-- Claim C5 (amended): the placeholder `XXXXX` is substituted only
when the oracle omits the replacement field; an explicitly empty
replacement string is stored verbatim. Hence every stored occurrence
has a non-empty `replacement_text` provided the record does not supply
an explicitly empty replacement (and the incoming `text_positions`
entries are non-empty too). -/
theorem c5_nonempty_replacements (doc : Doc) (st : LocState) (e : Element)
    (h1 : e.replacement ≠ some "")
    (h2 : ∀ kv ∈ st.textPositions, kv.2.replacement ≠ "")
    (st' : LocState) (h3 : processElement doc st e = some st') :
    ∀ kv ∈ st'.textPositions, kv.2.replacement ≠ "" := by
  have hrep : elemReplacement e ≠ "" := by
    unfold elemReplacement
    cases hr : e.replacement with
    | none => simp
    | some r =>
        simp only [Option.getD_some]
        intro hempty
        exact h1 (hempty ▸ hr)
  unfold processElement at h3
  split at h3
  · split at h3
    · exact absurd h3 (by simp)
    · rename_i page _
      cases h3
      intro kv hkv
      rcases mem_foldl_searchPairs page (elemPageNum e) _ _ kv hkv with h | h
      · exact h2 kv h
      · obtain ⟨pair, hmem, heq⟩ := h
        rw [heq]
        exact elementsToSearch_snd_ne_empty _ _ _ hrep pair hmem
  · cases h3
    exact h2

/-- Witness for C5: an oracle record with the non-empty replacement "B"
matched once yields a single stored occurrence whose replacement is
non-empty. -/
theorem c5_nonempty_replacements_witness :
    (⟨some "IBAN", some "A", some "B", some 1, none⟩ : Element).replacement ≠ some "" ∧
    ∀ kv ∈ (LocState.mk
        [("0_A_0_0", ⟨⟨0, 0, 10, 10⟩, "B", ⟨"helv", 10, 0⟩⟩)] []).textPositions,
      kv.2.replacement ≠ "" :=
  ⟨by decide,
   c5_nonempty_replacements docWithA ⟨[], []⟩
     ⟨some "IBAN", some "A", some "B", some 1, none⟩ (by decide)
     (by intro kv h; simp at h)
     ⟨[("0_A_0_0", ⟨⟨0, 0, 10, 10⟩, "B", ⟨"helv", 10, 0⟩⟩)], []⟩ (by decide)⟩

lemma mem_pageTrace_page (tp : List (String × PosInfo)) (q : Nat) (e : Event)
    (h : e ∈ pageTrace tp q) : e.page = q := by
  simp only [pageTrace, List.mem_append, List.mem_map, List.mem_singleton] at h
  rcases h with (⟨kv, _, rfl⟩ | rfl) | ⟨kv, _, rfl⟩ <;> rfl

lemma secondPassTrace_succ (tp : List (String × PosInfo)) (n : Nat) :
    secondPassTrace tp (n + 1) = secondPassTrace tp n ++ pageTrace tp n := by
  simp [secondPassTrace, List.range_succ]

lemma mem_secondPassTrace_page_lt (tp : List (String × PosInfo)) (n : Nat) (e : Event)
    (h : e ∈ secondPassTrace tp n) : e.page < n := by
  induction n with
  | zero => simp [secondPassTrace] at h
  | succ m ih =>
      rw [secondPassTrace_succ] at h
      rcases List.mem_append.1 h with h' | h'
      · exact Nat.lt_succ_of_lt (ih h')
      · rw [mem_pageTrace_page tp m e h']
        exact Nat.lt_succ_self m

/-- Claim C2: in the second-pass event trace, the events touching a
page form one contiguous block consisting of all that page's redaction
blankings, then `apply_redactions`, then all replacement-text
insertions for the page — so no insertion on a page ever precedes any
of that page's blanking. -/
theorem c2_blanking_before_insertion (tp : List (String × PosInfo)) (n p : Nat)
    (h : p < n) :
    ∃ pre post,
      secondPassTrace tp n =
        pre ++ ((pageInfos tp p).map (fun kv => Event.blank p kv.2.rect)
          ++ [Event.applyRedactions p]
          ++ (pageInfos tp p).map (fun kv => Event.insert p kv.2.replacement)) ++ post ∧
      (∀ e ∈ pre, e.page ≠ p) ∧ (∀ e ∈ post, e.page ≠ p) := by
  induction n with
  | zero => exact absurd h (Nat.not_lt_zero p)
  | succ m ih =>
      rcases Nat.lt_succ_iff_lt_or_eq.1 h with h' | h'
      · obtain ⟨pre, post, heq, hpre, hpost⟩ := ih h'
        refine ⟨pre, post ++ pageTrace tp m, ?_, hpre, ?_⟩
        · rw [secondPassTrace_succ, heq]
          simp [List.append_assoc]
        · intro e he
          rcases List.mem_append.1 he with he | he
          · exact hpost e he
          · rw [mem_pageTrace_page tp m e he]
            omega
      · subst h'
        refine ⟨secondPassTrace tp p, [], ?_, ?_, by simp⟩
        · rw [secondPassTrace_succ]
          simp [pageTrace]
        · intro e he
          have := mem_secondPassTrace_page_lt tp p e he
          omega

/-- Witness for C2 on a one-page document with an empty
`text_positions` dict. -/
theorem c2_blanking_before_insertion_witness :
    0 < 1 ∧
    ∃ pre post,
      secondPassTrace [] 1 =
        pre ++ ((pageInfos [] 0).map (fun kv => Event.blank 0 kv.2.rect)
          ++ [Event.applyRedactions 0]
          ++ (pageInfos [] 0).map (fun kv => Event.insert 0 kv.2.replacement)) ++ post ∧
      (∀ e ∈ pre, e.page ≠ 0) ∧ (∀ e ∈ post, e.page ≠ 0) :=
  ⟨Nat.zero_lt_one, c2_blanking_before_insertion [] 1 0 Nat.zero_lt_one⟩

/-- A text line whose text is a single space (blank after `strip()`),
with a bounding box. -/
def blankTextLine : Line :=
  ⟨some ⟨0, 0, 10, 10⟩, [⟨⟨0, 0, 10, 10⟩, none, none, none, some " "⟩]⟩

/-- Counterexample to C9 as stated: with an empty accepted set (so no
already-accepted rectangle overlaps at all), a whitespace-only line is
nevertheless dropped from the output, and its rectangle is still added
to the accepted set. -/
theorem c9_counterexample :
    lineText blankTextLine = " " ∧
    ([] : List Rect).any (overlayDrops ⟨0, 0, 10, 10⟩) = false ∧
    extractStep ([], []) blankTextLine = ([], [⟨0, 0, 10, 10⟩]) := by
  refine ⟨rfl, rfl, ?_⟩
  decide

/-- Claim C9 (amended): a line with a bounding box is kept in the
output exactly when no already-accepted rectangle overlaps it by more
than half its area AND its text is non-blank; it is dropped exactly
when an accepted rectangle overlaps or its text is whitespace-only.
Its rectangle is recorded in the accepted set exactly according to the
overlap test, independently of whether the text was blank. -/
theorem c9_line_filtering (acc : List String × List Rect) (line : Line) (r : Rect)
    (h : line.bbox = some r) :
    ((extractStep acc line).1 = acc.1 ++ [lineText line] ↔
      acc.2.any (overlayDrops r) = false ∧ stripNonEmpty (lineText line) = true) ∧
    ((extractStep acc line).1 = acc.1 ↔
      acc.2.any (overlayDrops r) = true ∨ stripNonEmpty (lineText line) = false) ∧
    (acc.2.any (overlayDrops r) = false → (extractStep acc line).2 = setAdd acc.2 r) ∧
    (acc.2.any (overlayDrops r) = true → (extractStep acc line).2 = acc.2) := by
  cases hov : acc.2.any (overlayDrops r) <;>
    cases hst : stripNonEmpty (lineText line) <;>
      simp [extractStep, h, hov, hst]

/-- A text line reading "Hi" with a bounding box. -/
def hiTextLine : Line :=
  ⟨some ⟨0, 0, 10, 10⟩, [⟨⟨0, 0, 10, 10⟩, none, none, none, some "Hi"⟩]⟩

/-- Witness for C9 (amended) on the "Hi" line against an empty accepted
set. -/
theorem c9_line_filtering_witness :
    ((extractStep ([], []) hiTextLine).1 = [] ++ [lineText hiTextLine] ↔
      ([] : List Rect).any (overlayDrops ⟨0, 0, 10, 10⟩) = false ∧
        stripNonEmpty (lineText hiTextLine) = true) ∧
    ((extractStep ([], []) hiTextLine).1 = [] ↔
      ([] : List Rect).any (overlayDrops ⟨0, 0, 10, 10⟩) = true ∨
        stripNonEmpty (lineText hiTextLine) = false) ∧
    (([] : List Rect).any (overlayDrops ⟨0, 0, 10, 10⟩) = false →
      (extractStep ([], []) hiTextLine).2 = setAdd [] ⟨0, 0, 10, 10⟩) ∧
    (([] : List Rect).any (overlayDrops ⟨0, 0, 10, 10⟩) = true →
      (extractStep ([], []) hiTextLine).2 = []) :=
  c9_line_filtering ([], []) hiTextLine ⟨0, 0, 10, 10⟩ rfl
